import Mathlib

/-!
Verification of the Intcode interpreter specification against the
`jsvana/aoc_2019` sources.

The definitions below are a shallow embedding of `src/day5/src/main.rs`
(the decode–execute interpreter cited by the claims) plus, clearly marked,
a model of the `intcode` module (`mod intcode;`) that `day13` and `day15`
declare and use but whose source file is not present under `src/`.

Conventions of the embedding:
* Rust `i64` values are represented as `Int`; `usize` as `Nat`.
* `value as usize` (an `i64 → usize` cast) is `usizeOfI64`, i.e. reduction
  modulo `2 ^ 64` — a negative `i64` becomes a huge `usize`.
* `anyhow::Error` values are represented by the inductive `Day5Err`, one
  constructor per `format_err!` site (context wrappers are dropped, the
  payloads that matter are kept).
* Methods taking `&mut self` are embedded as state-passing functions that
  return the updated value; `Tape::set` additionally returns its `Result`
  paired with the resulting tape so that the no-mutation-on-error path of
  the source is visible in the model.
* Reading a line from stdin in the `Input` opcode is modelled by popping
  the head of an explicit `List Int` of pending input values; an empty
  list models a failed read/parse.
* A Rust panic (the `.unwrap()` on a missing tape cell in
  `Instruction::new`) is modelled as the distinguished error
  `Day5Err.tapeUnwrapPanic`.
-/

/-- Errors produced by `src/day5/src/main.rs`, one constructor per
`format_err!` site (plus the modelled panic and stdin failure). -/
inductive Day5Err where
  | setOutOfRange (offset length : Nat)
  | noOpcodeAtOffset (offset : Nat)
  | opcodeSliceParseFailed
  | unknownOpcode (value : Int)
  | unknownMode (c : Char)
  | wrongArgumentCount (expected got : Nat)
  | argumentMissing (index : Nat)
  | argumentNone (index : Nat)
  | tapeUnwrapPanic (offset : Nat)
  | stdinReadFailed
  | numberParseFailed
  deriving DecidableEq, Repr

/-- The `i64 → usize` cast (`value as usize`): wrap modulo `2 ^ 64`. -/
def usizeOfI64 (v : Int) : Nat :=
  (v % (2 ^ 64 : Int)).toNat

/-- `enum OpCode` of day5. -/
inductive OpCode where
  | Add
  | Multiply
  | Input
  | Output
  | Terminate
  deriving DecidableEq, Repr

/-- `OpCode::argument_count`. -/
def OpCode.argument_count : OpCode → Nat
  | .Add | .Multiply => 3
  | .Input | .Output => 1
  | .Terminate => 0

/-- `impl TryFrom<i64> for OpCode` of day5: only the five values
1, 2, 3, 4, 99 are recognised. -/
def OpCode.try_from (value : Int) : Except Day5Err OpCode :=
  if value = 1 then .ok .Add
  else if value = 2 then .ok .Multiply
  else if value = 3 then .ok .Input
  else if value = 4 then .ok .Output
  else if value = 99 then .ok .Terminate
  else .error (.unknownOpcode value)

/-- `struct Tape { program: Vec<i64> }`. -/
structure Tape where
  program : List Int
  deriving DecidableEq, Repr

/-- `Tape::new`. -/
def Tape.new (program : List Int) : Tape :=
  ⟨program⟩

/-- `Tape::get`: `self.program.get(offset).cloned()`. -/
def Tape.get (t : Tape) (offset : Nat) : Option Int :=
  t.program.get? offset

/-- `Tape::set`: rejects `offset >= len` with an error (the tape is returned
unchanged, mirroring the early `return Err` before any mutation), otherwise
stores `value` at `offset`. -/
def Tape.set (t : Tape) (offset : Nat) (value : Int) :
    Except Day5Err Unit × Tape :=
  if t.program.length ≤ offset then
    (.error (.setOutOfRange offset t.program.length), t)
  else
    (.ok (), ⟨t.program.set offset value⟩)

/-- `enum FetchMode` of day5 (no Relative mode exists there). -/
inductive FetchMode where
  | Immediate
  | Position
  deriving DecidableEq, Repr

/-- `impl TryFrom<char> for FetchMode`. -/
def FetchMode.try_from (c : Char) : Except Day5Err FetchMode :=
  if c = '0' then .ok .Position
  else if c = '1' then .ok .Immediate
  else .error (.unknownMode c)

/-- `struct Argument`. -/
structure Argument where
  mode : FetchMode
  value : Int
  deriving DecidableEq, Repr

/-- `Argument::get`: Immediate yields the raw value, Position dereferences
the tape at `self.value as usize`. -/
def Argument.get (a : Argument) (tape : Tape) : Option Int :=
  match a.mode with
  | .Immediate => some a.value
  | .Position => tape.get (usizeOfI64 a.value)

/-- `struct Instruction`. -/
structure Instruction where
  position : Nat
  opcode : OpCode
  arguments : List Argument
  deriving DecidableEq, Repr

/-- Decimal digit characters of `n`, most significant first — the digit part
of Rust's `Display` for integers (`natDigits` below gives it a structural
fuel so that it computes by `rfl`/`decide`). -/
def natDigitsAux : Nat → Nat → List Char
  | 0, _ => []
  | fuel + 1, n =>
    if n < 10 then [Nat.digitChar n]
    else natDigitsAux fuel (n / 10) ++ [Nat.digitChar (n % 10)]

/-- Decimal digits of a natural number, most significant first. -/
def natDigits (n : Nat) : List Char :=
  natDigitsAux (n + 1) n

/-- `format!("{}", v)` for an `i64`: sign, then decimal digits. -/
def intRepr (v : Int) : List Char :=
  if v < 0 then '-' :: natDigits v.natAbs else natDigits v.toNat

/-- `format!("{:0>width$}", s)`: left-pad with `'0'` up to `width`. -/
def padLeftZero (width : Nat) (l : List Char) : List Char :=
  List.replicate (width - l.length) '0' ++ l

/-- Fold a run of decimal digit characters into a value; `none` as soon as a
non-digit is hit (the core of `str::parse::<i64>`). -/
def digitsFold : List Char → Nat → Option Nat
  | [], acc => some acc
  | c :: rest, acc =>
    if c.isDigit then digitsFold rest (acc * 10 + (c.toNat - 48))
    else none

/-- `str::parse::<i64>()`: an optional single sign, then one or more decimal
digits, and the value must fit in `i64` (out-of-range input is rejected, it
does not wrap). -/
def parseI64 (l : List Char) : Option Int :=
  let signed : Int × List Char :=
    match l with
    | '+' :: rest => (1, rest)
    | '-' :: rest => (-1, rest)
    | _ => (1, l)
  if signed.2.isEmpty then none
  else
    match digitsFold signed.2 0 with
    | none => none
    | some n =>
      let v : Int := signed.1 * n
      if -(2 ^ 63) ≤ v ∧ v ≤ 2 ^ 63 - 1 then some v else none

/-- The opcode-selection step of `Instruction::new`: render the cell value
with `format!("{:0>2}", v)`, slice the last two characters, parse them back
as an `i64` (`impl TryFrom<&str> for OpCode`) and dispatch on the result. -/
def opcodeOfValue (v : Int) : Except Day5Err OpCode :=
  let code := padLeftZero 2 (intRepr v)
  match parseI64 (code.drop (code.length - 2)) with
  | none => .error .opcodeSliceParseFailed
  | some n => OpCode.try_from n

/-- `enum InstructionResult`. -/
inductive InstructionResult where
  | Continue
  | Terminate
  deriving DecidableEq, Repr

/-- Mode selection for loop index `i` inside `Instruction::new`: when `i`
equals `argument_count - 1` the mode is not read from the digit but forced
from the opcode (`Position` for `Output`, `Immediate` otherwise) — the
`TODO(jsvana): fix this...` branch of the source; every other index parses
its mode digit.  (For the arity-0 `Terminate` opcode with leftover mode
digits, `argument_count - 1` underflows in Rust; here `Nat` subtraction
gives `0` — either way `validate` rejects the surplus arguments, so no
`.ok` result is affected.) -/
def modeForIndex (opcode : OpCode) (argc i : Nat) (c : Char) :
    Except Day5Err FetchMode :=
  if i = argc - 1 then
    match opcode with
    | .Output => .ok .Position
    | _ => .ok .Immediate
  else FetchMode.try_from c

/-- The argument-building loop of `Instruction::new`: iterate over the
zero-padded mode string reversed (so index `i = 0` is the least significant
mode digit), selecting each mode via `modeForIndex`; the argument value is
`tape.get(offset + i + 1).unwrap()`, a missing cell being the modelled
panic. -/
def buildArgs (tape : Tape) (offset argc : Nat) (opcode : OpCode) :
    List Char → Nat → Except Day5Err (List Argument)
  | [], _ => .ok []
  | c :: rest, i =>
    match modeForIndex opcode argc i c with
    | .error e => .error e
    | .ok mode =>
      match tape.get (offset + i + 1) with
      | none => .error (.tapeUnwrapPanic (offset + i + 1))
      | some value =>
        match buildArgs tape offset argc opcode rest (i + 1) with
        | .error e => .error e
        | .ok rest' => .ok ({ mode := mode, value := value } :: rest')

/-- `Instruction::validate` (the mode check of the source is commented out
there; only the arity check is live). -/
def Instruction.validate (i : Instruction) : Except Day5Err Unit :=
  if i.arguments.length ≠ i.opcode.argument_count then
    .error (.wrongArgumentCount i.opcode.argument_count i.arguments.length)
  else .ok ()

/-- `Instruction::new`: format the cell at `offset` as a ≥2-character
zero-padded decimal string, parse the opcode from its last two characters,
build one argument per mode digit of the rest (padded to the opcode's
arity), then validate. -/
def Instruction.new (tape : Tape) (offset : Nat) :
    Except Day5Err Instruction :=
  match tape.get offset with
  | none => .error (.noOpcodeAtOffset offset)
  | some v =>
    match opcodeOfValue v with
    | .error e => .error e
    | .ok opcode =>
      let code := padLeftZero 2 (intRepr v)
      let argc := opcode.argument_count
      let modeChars := padLeftZero argc (code.take (code.length - 2))
      match buildArgs tape offset argc opcode modeChars.reverse 0 with
      | .error e => .error e
      | .ok arguments =>
        let instruction : Instruction :=
          { position := offset, opcode := opcode, arguments := arguments }
        match instruction.validate with
        | .error e => .error e
        | .ok _ => .ok instruction

/-- `Instruction::get_argument_value`. -/
def Instruction.get_argument_value (i : Instruction) (tape : Tape)
    (index : Nat) : Except Day5Err Int :=
  match i.arguments.get? index with
  | none => .error (.argumentMissing index)
  | some a =>
    match a.get tape with
    | none => .error (.argumentNone index)
    | some v => .ok v

/-- `Instruction::run`.  The result carries the updated tape, the remaining
stdin values and the values printed by `Output` during this instruction. -/
def Instruction.run (i : Instruction) (tape : Tape) (stdin : List Int) :
    Except Day5Err (InstructionResult × Tape × List Int × List Int) :=
  match i.opcode with
  | .Add => do
    let arg1 ← i.get_argument_value tape 0
    let arg2 ← i.get_argument_value tape 1
    let result_offset ← i.get_argument_value tape 2
    match tape.set (usizeOfI64 result_offset) (arg1 + arg2) with
    | (.error e, _) => .error e
    | (.ok _, tape') => .ok (.Continue, tape', stdin, [])
  | .Multiply => do
    let arg1 ← i.get_argument_value tape 0
    let arg2 ← i.get_argument_value tape 1
    let result_offset ← i.get_argument_value tape 2
    match tape.set (usizeOfI64 result_offset) (arg1 * arg2) with
    | (.error e, _) => .error e
    | (.ok _, tape') => .ok (.Continue, tape', stdin, [])
  | .Input =>
    match stdin with
    | [] => .error .stdinReadFailed
    | value :: rest => do
      let result_offset ← i.get_argument_value tape 0
      match tape.set (usizeOfI64 result_offset) value with
      | (.error e, _) => .error e
      | (.ok _, tape') => .ok (.Continue, tape', rest, [])
  | .Output => do
    let v ← i.get_argument_value tape 0
    .ok (.Continue, tape, stdin, [v])
  | .Terminate => .ok (.Terminate, tape, stdin, [])

/-- The decode–execute loop of day5's `main`, fuel-indexed: `.ok none` means
the fuel was exhausted before `Terminate`; `.ok (some (tape, stdin, outs))`
is normal termination with the final tape, the unread stdin values and all
produced output. -/
def runMain : Nat → Tape → Nat → List Int → List Int →
    Except Day5Err (Option (Tape × List Int × List Int))
  | 0, _, _, _, _ => .ok none
  | fuel + 1, tape, pc, stdin, outs =>
    match Instruction.new tape pc with
    | .error e => .error e
    | .ok instr =>
      match instr.run tape stdin with
      | .error e => .error e
      | .ok (res, tape', stdin', emitted) =>
        match res with
        | .Terminate => .ok (some (tape', stdin', outs ++ emitted))
        | .Continue =>
          runMain fuel tape' (pc + instr.opcode.argument_count + 1) stdin'
            (outs ++ emitted)

/-- Rust `str::trim` (ASCII whitespace suffices for this loader). -/
def trimChars (l : List Char) : List Char :=
  ((l.dropWhile Char.isWhitespace).reverse.dropWhile Char.isWhitespace).reverse

/-- Rust `input.split(",")` on a character list. -/
def splitCommas : List Char → List (List Char)
  | [] => [[]]
  | c :: rest =>
    if c = ',' then [] :: splitCommas rest
    else
      match splitCommas rest with
      | [] => [[c]]
      | t :: ts => (c :: t) :: ts

/-- The parse-and-push loop of `string_to_vec`: `ret.push(num.parse()?)`,
aborting on the first token that fails to parse. -/
def parseAllTokens : List (List Char) → Except Day5Err (List Int)
  | [] => .ok []
  | tok :: rest =>
    match parseI64 tok with
    | none => .error .numberParseFailed
    | some v =>
      match parseAllTokens rest with
      | .error e => .error e
      | .ok vs => .ok (v :: vs)

/-- `string_to_vec` of day5 (day2's is identical but returns the bare
vector): trim, split on commas, parse every token, wrap in a `Tape`. -/
def string_to_vec (input : List Char) : Except Day5Err Tape :=
  match parseAllTokens (splitCommas (trimChars input)) with
  | .error e => .error e
  | .ok vs => .ok (Tape.new vs)

/-- Modelled from the spec: error taxonomy of the `intcode` module's
`Program` (spec §4.3/§7).  The module itself (`mod intcode;`, imported by
day13 and day15) is not present under `src/`. -/
inductive SpecErr where
  | OutOfBoundsError
  | InvalidWriteMode
  | UnknownModeDigit (d : Int)
  | UnmodelledOpcode (v : Int)
  deriving DecidableEq, Repr

/-- Modelled from the spec: execution status of a `Program` (spec §4.4). -/
inductive SpecStatus where
  | Running
  | WaitingForInput
  | Halted
  deriving DecidableEq, Repr

/-- Modelled from the spec: the `intcode` module's `Program` state — growable
memory, instruction pointer, relative base, status and the two queues
(spec §3). -/
structure SpecProgram where
  memory : List Int
  ip : Nat
  relative_base : Int
  status : SpecStatus
  inputs : List Int
  outputs : List Int
  deriving DecidableEq, Repr

/-- Modelled from the spec: `Memory.get` — reading past the current length
yields 0 (spec §4.1); addresses here are already non-negative. -/
def SpecProgram.memGet (m : List Int) (a : Nat) : Int :=
  (m.get? a).getD 0

/-- Modelled from the spec: `Memory.set` — a negative address is an
`OutOfBoundsError`; otherwise the backing sequence is zero-extended as
needed and the value stored (spec §4.1). -/
def SpecProgram.memSet (m : List Int) (a : Int) (v : Int) :
    Except SpecErr (List Int) :=
  if a < 0 then .error .OutOfBoundsError
  else .ok ((m ++ List.replicate (a.toNat + 1 - m.length) 0).set a.toNat v)

/-- Modelled from the spec: write-target resolution for the first parameter
of the instruction at `ip` (spec §4.2/§4.3) — the mode digit is the third
decimal digit of the instruction value; Position resolves to the raw value,
Relative to `relative_base + raw`, Immediate is `InvalidWriteMode`. -/
def SpecProgram.write_target (p : SpecProgram) : Except SpecErr Int :=
  let md := SpecProgram.memGet p.memory p.ip / 100 % 10
  let raw := SpecProgram.memGet p.memory (p.ip + 1)
  if md = 0 then .ok raw
  else if md = 2 then .ok (p.relative_base + raw)
  else if md = 1 then .error .InvalidWriteMode
  else .error (.UnknownModeDigit md)

/-- Modelled from the spec: one step of the `intcode` `Program`'s
decode–execute loop, restricted to the opcodes the claims about the missing
module need (Input, spec §4.3 Input row, and Terminate).  For Input: pop the
front of the input queue; if the queue is empty, suspend — leave `ip` and
memory unchanged, set status to `WaitingForInput`, do not consume the
instruction; otherwise write the popped value to the resolved target and
advance `ip` by `1 + parameter_count = 2`. -/
def SpecProgram.step (p : SpecProgram) : Except SpecErr SpecProgram :=
  let v := SpecProgram.memGet p.memory p.ip
  if v % 100 = 3 then
    match p.inputs with
    | [] => .ok { p with status := .WaitingForInput }
    | value :: rest =>
      match p.write_target with
      | .error e => .error e
      | .ok tgt =>
        match SpecProgram.memSet p.memory tgt value with
        | .error e => .error e
        | .ok m' => .ok { p with memory := m', ip := p.ip + 2, inputs := rest }
  else if v % 100 = 99 then .ok { p with status := .Halted }
  else .error (.UnmodelledOpcode (v % 100))

/-- C1 counterexample: the claim says `get` at an address at or past the
current length returns 0 and never fails; day5's `Tape::get` returns no
value there (`None`), not 0. -/
theorem c1_counterexample :
    Tape.get (Tape.new [99]) 1 = none ∧ Tape.get (Tape.new [99]) 1 ≠ some 0 :=
  ⟨rfl, by decide⟩

/-- C1 (amended): `Tape::get` returns the stored value for an address below
the current length and no value (`None`) at or past it; consequently a
Position-mode argument pointing at or past the end makes
`get_argument_value` fail with an argument-is-None error — reads past the
end do fail rather than yielding 0. -/
theorem c1_amended (t : Tape) (a : Nat) :
    (∀ h : a < t.program.length, t.get a = some (t.program.get ⟨a, h⟩)) ∧
    (t.program.length ≤ a → t.get a = none) ∧
    (∀ (i : Instruction) (idx : Nat) (arg : Argument),
      i.arguments.get? idx = some arg → arg.mode = .Position →
      t.program.length ≤ usizeOfI64 arg.value →
      i.get_argument_value t idx = .error (.argumentNone idx)) := by
  refine ⟨?_, ?_, ?_⟩
  · intro h
    simpa [Tape.get] using List.get?_eq_get h
  · intro h
    simpa [Tape.get] using List.get?_len_le h
  · intro i idx arg hget hmode hlen
    have hnone : t.program.get? (usizeOfI64 arg.value) = none :=
      List.get?_len_le hlen
    simp only [List.get?_eq_getElem?] at hget hnone
    simp [Instruction.get_argument_value, hget, Argument.get, hmode, Tape.get,
      hnone]

/-- C1 witness: the amended theorem evaluated on a length-1 tape. -/
theorem c1_amended_witness :
    Tape.get (Tape.new [7]) 0 = some 7 ∧
    Tape.get (Tape.new [7]) 2 = none ∧
    Instruction.get_argument_value
      { position := 0, opcode := .Output,
        arguments := [{ mode := .Position, value := 5 }] }
      (Tape.new [7]) 0 = .error (.argumentNone 0) := by
  refine ⟨?_, ?_, ?_⟩
  · exact (c1_amended (Tape.new [7]) 0).1 (by decide)
  · exact (c1_amended (Tape.new [7]) 2).2.1 (by decide)
  · exact (c1_amended (Tape.new [7]) 0).2.2 _ 0 _ rfl rfl (by decide)

/-- C2 counterexample: at the non-negative address 1 on a length-1 tape,
day5's `Tape::set` fails and does not extend the tape, contradicting the
claim that `set` always succeeds by zero-extending. -/
theorem c2_counterexample :
    Tape.set (Tape.new [99]) 1 5 =
      (.error (.setOutOfRange 1 1), Tape.new [99]) := rfl

/-- C2 (amended): `Tape::set` succeeds exactly when the address is below the
current length, storing the value there; at or past the length it fails with
an out-of-range error and leaves the tape unchanged.  It never extends the
backing sequence, and a negative address cannot be passed (the offset
parameter is unsigned), so no separate negative-address failure exists. -/
theorem c2_amended (t : Tape) (a : Nat) (v : Int) :
    (a < t.program.length →
      t.set a v = (.ok (), Tape.new (t.program.set a v))) ∧
    (t.program.length ≤ a →
      t.set a v = (.error (.setOutOfRange a t.program.length), t)) ∧
    (t.set a v).2.program.length = t.program.length := by
  refine ⟨?_, ?_, ?_⟩
  · intro h
    simp [Tape.set, Nat.not_le.mpr h, Tape.new]
  · intro h
    simp [Tape.set, h]
  · by_cases h : t.program.length ≤ a <;> simp [Tape.set, h]

/-- C2 witness: the amended theorem evaluated on a length-2 tape. -/
theorem c2_amended_witness :
    Tape.set (Tape.new [1, 2]) 0 9 = (.ok (), Tape.new [9, 2]) ∧
    Tape.set (Tape.new [1, 2]) 2 9 =
      (.error (.setOutOfRange 2 2), Tape.new [1, 2]) := by
  constructor
  · exact (c2_amended (Tape.new [1, 2]) 0 9).1 (by decide)
  · exact (c2_amended (Tape.new [1, 2]) 2 9).2.1 (by decide)

/-- C10: `Tape::set` with an offset not below the current length returns an
error and leaves the tape entirely unchanged (the bound check precedes any
mutation); on success only the cell at the given offset changes. -/
theorem c10_set_no_partial_mutation (t : Tape) (o : Nat) (v : Int) :
    (t.program.length ≤ o →
      (t.set o v).1 = .error (.setOutOfRange o t.program.length) ∧
      (t.set o v).2 = t) ∧
    (o < t.program.length →
      (t.set o v).1 = .ok () ∧
      (t.set o v).2.get o = some v ∧
      ∀ j : Nat, j ≠ o → (t.set o v).2.get j = t.get j) := by
  constructor
  · intro h
    constructor <;> simp [Tape.set, h]
  · intro h
    refine ⟨?_, ?_, ?_⟩
    · simp [Tape.set, Nat.not_le.mpr h]
    · simp [Tape.set, Nat.not_le.mpr h, Tape.get,
        List.getElem?_set_eq_of_lt v h]
    · intro j hj
      simp [Tape.set, Nat.not_le.mpr h, Tape.get,
        List.getElem?_set_ne (fun he => hj he.symm)]

/-- C10 witness: the frame property evaluated on a length-3 tape. -/
theorem c10_witness :
    ((Tape.new [4, 5, 6]).set 3 8).2 = Tape.new [4, 5, 6] ∧
    ((Tape.new [4, 5, 6]).set 1 8).2.get 1 = some 8 ∧
    ((Tape.new [4, 5, 6]).set 1 8).2.get 2 = (Tape.new [4, 5, 6]).get 2 := by
  refine ⟨?_, ?_, ?_⟩
  · exact ((c10_set_no_partial_mutation (Tape.new [4, 5, 6]) 3 8).1
      (by decide)).2
  · exact ((c10_set_no_partial_mutation (Tape.new [4, 5, 6]) 1 8).2
      (by decide)).2.1
  · exact ((c10_set_no_partial_mutation (Tape.new [4, 5, 6]) 1 8).2
      (by decide)).2.2 2 (by decide)

/-- C7: running `1002,4,3,4,33` from instruction pointer 0 until the
Terminate opcode leaves memory index 4 equal to 99. -/
theorem c7_example_program :
    runMain 3 (Tape.new [1002, 4, 3, 4, 33]) 0 [] [] =
      .ok (some (Tape.new [1002, 4, 3, 4, 99], [], [])) ∧
    (Tape.new [1002, 4, 3, 4, 99]).get 4 = some 99 :=
  ⟨rfl, rfl⟩

/-- C4 (code bug, evaluated at the failing input): decoding `[104, 7, 99]`
at ip 0 yields an Output instruction whose only parameter has mode digit 1
(Immediate per the claim), but the decoder forces Position for it, and the
run then fails trying to dereference address 7 instead of outputting 7. -/
theorem c4_forced_mode_at_failing_input :
    Instruction.new (Tape.new [104, 7, 99]) 0 =
      .ok { position := 0, opcode := .Output,
            arguments := [{ mode := .Position, value := 7 }] } ∧
    Instruction.run
      { position := 0, opcode := .Output,
        arguments := [{ mode := .Position, value := 7 }] }
      (Tape.new [104, 7, 99]) [] = .error (.argumentNone 0) :=
  ⟨rfl, rfl⟩

/-- C3: for the spec-modelled `intcode` Program — when the next instruction
is Input (opcode digits 3 at `ip`) and the input queue is empty, one step
leaves `ip`, memory, relative base and queues unchanged, only setting the
status to WaitingForInput (the instruction is not consumed); when exactly
one value has been enqueued and the Program is resumed, the step consumes
exactly that value (the queue ends empty), writes it to the resolved target
address and advances `ip` by 2. -/
theorem c3_input_suspend_resume (p : SpecProgram)
    (hop : SpecProgram.memGet p.memory p.ip % 100 = 3) :
    (p.inputs = [] →
      SpecProgram.step p = .ok { p with status := .WaitingForInput }) ∧
    (∀ (v a : Int) (m' : List Int), p.inputs = [v] →
      p.write_target = .ok a →
      SpecProgram.memSet p.memory a v = .ok m' →
      SpecProgram.step p =
        .ok { p with memory := m', ip := p.ip + 2, inputs := [] }) := by
  constructor
  · intro h
    simp only [SpecProgram.step, hop, if_pos, h]
  · intro v a m' hin hwt hset
    simp only [SpecProgram.step, hop, if_pos, hin, hwt, hset]

/-- C3 witness: the suspend/resume contract evaluated on the concrete
program `3,0,99`. -/
theorem c3_witness :
    SpecProgram.step ⟨[3, 0, 99], 0, 0, .Running, [], []⟩ =
      .ok ⟨[3, 0, 99], 0, 0, .WaitingForInput, [], []⟩ ∧
    SpecProgram.step ⟨[3, 0, 99], 0, 0, .Running, [7], []⟩ =
      .ok ⟨[7, 0, 99], 2, 0, .Running, [], []⟩ := by
  constructor
  · exact (c3_input_suspend_resume ⟨[3, 0, 99], 0, 0, .Running, [], []⟩
      (by decide)).1 rfl
  · exact (c3_input_suspend_resume ⟨[3, 0, 99], 0, 0, .Running, [7], []⟩
      (by decide)).2 7 0 [7, 0, 99] rfl rfl rfl

/-- Correctness of the token-parsing loop of `string_to_vec` relative to
`List.mapM`. -/
theorem parseAllTokens_spec (toks : List (List Char)) :
    ((∀ tok ∈ toks, (parseI64 tok).isSome) →
      parseAllTokens toks = .ok (toks.map fun tok => (parseI64 tok).getD 0)) ∧
    ((∃ tok ∈ toks, parseI64 tok = none) →
      parseAllTokens toks = .error .numberParseFailed) := by
  induction toks with
  | nil =>
    constructor
    · intro
      rfl
    · rintro ⟨tok, h, -⟩
      simp at h
  | cons tok rest ih =>
    constructor
    · intro h
      have htok := h tok (List.mem_cons_self tok rest)
      cases hp : parseI64 tok with
      | none => rw [hp] at htok; simp at htok
      | some v =>
        simp only [parseAllTokens, hp]
        rw [ih.1 fun u hu => h u (List.mem_cons_of_mem tok hu)]
        simp [hp]
    · rintro ⟨u, hu, hnone⟩
      rcases List.mem_cons.mp hu with rfl | hu'
      · simp [parseAllTokens, hnone]
      · cases hp : parseI64 tok with
        | none => simp [parseAllTokens, hp]
        | some v => simp [parseAllTokens, hp, ih.2 ⟨u, hu', hnone⟩]

/-- C9: the loader trims the input, splits it on commas, and succeeds with
exactly the parsed integers in order when every token parses as an i64;
it fails (aborting the load) as soon as any token does not parse. -/
theorem c9_loader (input : List Char) :
    ((∀ tok ∈ splitCommas (trimChars input), (parseI64 tok).isSome) →
      string_to_vec input =
        .ok (Tape.new ((splitCommas (trimChars input)).map
          fun tok => (parseI64 tok).getD 0))) ∧
    ((∃ tok ∈ splitCommas (trimChars input), parseI64 tok = none) →
      string_to_vec input = .error .numberParseFailed) := by
  constructor
  · intro h
    unfold string_to_vec
    rw [(parseAllTokens_spec _).1 h]
  · intro h
    unfold string_to_vec
    rw [(parseAllTokens_spec _).2 h]

/-- C9 witness: the loader evaluated on a well-formed and on a malformed
input. -/
theorem c9_loader_witness :
    string_to_vec [' ', '1', ',', '-', '2', ' '] = .ok (Tape.new [1, -2]) ∧
    string_to_vec ['1', ',', 'x'] = .error .numberParseFailed := by
  constructor
  · exact ((c9_loader [' ', '1', ',', '-', '2', ' ']).1 (by decide)).trans
      (by rfl)
  · exact (c9_loader ['1', ',', 'x']).2 ⟨['x'], by decide, by decide⟩

/-- Fuel monotonicity of the decode–execute loop: a normally terminated run
is unaffected by giving the loop more fuel. -/
theorem runMain_mono (f : Nat) : ∀ (f' : Nat), f ≤ f' →
    ∀ (t : Tape) (pc : Nat) (stdin outs : List Int)
      (r : Tape × List Int × List Int),
    runMain f t pc stdin outs = .ok (some r) →
    runMain f' t pc stdin outs = .ok (some r) := by
  induction f with
  | zero =>
    intro f' _ t pc stdin outs r h
    simp [runMain] at h
  | succ f ih =>
    intro f' hle t pc stdin outs r h
    cases f' with
    | zero => omega
    | succ f' =>
      rw [runMain] at h ⊢
      cases hnew : Instruction.new t pc with
      | error e => simp_all
      | ok instr =>
        simp only [hnew] at h ⊢
        cases hrun : instr.run t stdin with
        | error e => simp_all
        | ok res4 =>
          simp only [hrun] at h ⊢
          obtain ⟨res, t', stdin', emitted⟩ := res4
          cases res with
          | Terminate => exact h
          | Continue => exact ih f' (by omega) _ _ _ _ _ h

/-- C8 counterexample: from the same initial memory `3,0,99`, two normally
terminating executions (with stdin supplying 5 and 7 respectively) end with
different final memories — determinism from the initial memory alone fails
for programs that read input. -/
theorem c8_counterexample :
    runMain 2 (Tape.new [3, 0, 99]) 0 [5] [] =
      .ok (some (Tape.new [5, 0, 99], [], [])) ∧
    runMain 2 (Tape.new [3, 0, 99]) 0 [7] [] =
      .ok (some (Tape.new [7, 0, 99], [], [])) ∧
    Tape.new [5, 0, 99] ≠ Tape.new [7, 0, 99] :=
  ⟨rfl, rfl, by decide⟩

/-- C8 (amended): executing the decode–execute loop twice from the same
initial memory and the same input sequence yields identical results
(final memory, remaining input and outputs), whenever both executions
terminate normally — regardless of the fuel bounds used. -/
theorem c8_two_run_determinism (t : Tape) (stdin : List Int) (f₁ f₂ : Nat)
    (r₁ r₂ : Tape × List Int × List Int)
    (h₁ : runMain f₁ t 0 stdin [] = .ok (some r₁))
    (h₂ : runMain f₂ t 0 stdin [] = .ok (some r₂)) : r₁ = r₂ := by
  rcases Nat.le_total f₁ f₂ with hle | hle
  · have h := runMain_mono f₁ f₂ hle t 0 stdin [] r₁ h₁
    rw [h] at h₂
    simpa using h₂
  · have h := runMain_mono f₂ f₁ hle t 0 stdin [] r₂ h₂
    rw [h] at h₁
    exact (by simpa using h₁ : r₂ = r₁).symm

/-- C8 witness: two-run determinism applied to the terminating program
`1002,4,3,4,33` with fuels 2 and 3. -/
theorem c8_two_run_determinism_witness :
    ((Tape.new [1002, 4, 3, 4, 99], [], []) :
        Tape × List Int × List Int) =
      (Tape.new [1002, 4, 3, 4, 99], [], []) :=
  c8_two_run_determinism (Tape.new [1002, 4, 3, 4, 33]) [] 2 3
    (Tape.new [1002, 4, 3, 4, 99], [], [])
    (Tape.new [1002, 4, 3, 4, 99], [], []) rfl rfl

/-- C5 counterexample: 5 is claimed to select JumpIfTrue, but day5's opcode
conversion recognises no such opcode — both the raw conversion and a full
decode fail with an unknown-opcode error. -/
theorem c5_counterexample :
    OpCode.try_from 5 = .error (.unknownOpcode 5) ∧
    Instruction.new (Tape.new [5, 0, 0, 0, 99]) 0 =
      .error (.unknownOpcode 5) :=
  ⟨rfl, rfl⟩


/-- Fuel irrelevance for the digit renderer. -/
theorem natDigitsAux_fuel_irrel : ∀ (f g n : Nat), n < f → n < g →
    natDigitsAux f n = natDigitsAux g n := by
  intro f
  induction f with
  | zero => intro g n h; omega
  | succ f ih =>
    intro g n hf hg
    cases g with
    | zero => omega
    | succ g =>
      simp only [natDigitsAux]
      by_cases h10 : n < 10
      · simp [h10]
      · have hn : 0 < n := by omega
        have hdiv : n / 10 < n := Nat.div_lt_self hn (by norm_num)
        simp only [h10, if_false]
        rw [ih g (n / 10) (by omega) (by omega)]

/-- Unfolding equation of `natDigits`. -/
theorem natDigits_unfold (n : Nat) :
    natDigits n =
      if n < 10 then [Nat.digitChar n]
      else natDigits (n / 10) ++ [Nat.digitChar (n % 10)] := by
  unfold natDigits
  rw [natDigitsAux]
  by_cases h : n < 10
  · simp [h]
  · have hn : 0 < n := by omega
    have hdiv : n / 10 < n := Nat.div_lt_self hn (by norm_num)
    simp only [h, if_false]
    rw [natDigitsAux_fuel_irrel n (n / 10 + 1) (n / 10) (by omega) (by omega)]

/-- Parsing a two-digit-character string yields the two-digit value. -/
theorem parseI64_two_digits : ∀ a, a < 10 → ∀ b, b < 10 →
    parseI64 [Nat.digitChar a, Nat.digitChar b] =
      some ((10 * a + b : Nat) : Int) := by decide

/-- The last two characters of the zero-padded decimal rendering of `n`
parse back to `n % 100`. -/
theorem parse_slice_of_natDigits (n : Nat) :
    parseI64 ((padLeftZero 2 (natDigits n)).drop
      ((padLeftZero 2 (natDigits n)).length - 2)) =
      some ((n % 100 : Nat) : Int) := by
  rcases Nat.lt_or_ge n 10 with h10 | h10
  · rw [natDigits_unfold, if_pos h10]
    have e : padLeftZero 2 [Nat.digitChar n] = ['0', Nat.digitChar n] := rfl
    rw [e]
    have : ('0' : Char) = Nat.digitChar 0 := rfl
    rw [show (['0', Nat.digitChar n].drop (['0', Nat.digitChar n].length - 2)) = ['0', Nat.digitChar n] from rfl]
    rw [this, parseI64_two_digits 0 (by norm_num) n h10]
    congr 1
    omega
  · rcases Nat.lt_or_ge n 100 with h100 | h100
    · rw [natDigits_unfold, if_neg (by omega)]
      have hq : n / 10 < 10 := by omega
      rw [natDigits_unfold (n / 10), if_pos hq]
      have e : padLeftZero 2 ([Nat.digitChar (n / 10)] ++ [Nat.digitChar (n % 10)]) =
          [Nat.digitChar (n / 10), Nat.digitChar (n % 10)] := rfl
      rw [e]
      rw [show ([Nat.digitChar (n / 10), Nat.digitChar (n % 10)].drop
        ([Nat.digitChar (n / 10), Nat.digitChar (n % 10)].length - 2)) =
        [Nat.digitChar (n / 10), Nat.digitChar (n % 10)] from rfl]
      rw [parseI64_two_digits (n / 10) hq (n % 10) (by omega)]
      congr 1
      omega
    · rw [natDigits_unfold, if_neg (by omega)]
      have hq10 : 10 ≤ n / 10 := by omega
      rw [natDigits_unfold (n / 10), if_neg (by omega)]
      set X := natDigits (n / 10 / 10) with hX
      have hlen : (padLeftZero 2 ((X ++ [Nat.digitChar (n / 10 % 10)]) ++
          [Nat.digitChar (n % 10)])) =
          X ++ [Nat.digitChar (n / 10 % 10), Nat.digitChar (n % 10)] := by
        simp [padLeftZero]
      rw [hlen]
      have hdrop : (X ++ [Nat.digitChar (n / 10 % 10), Nat.digitChar (n % 10)]).drop
          ((X ++ [Nat.digitChar (n / 10 % 10), Nat.digitChar (n % 10)]).length - 2) =
          [Nat.digitChar (n / 10 % 10), Nat.digitChar (n % 10)] := by
        have : (X ++ [Nat.digitChar (n / 10 % 10), Nat.digitChar (n % 10)]).length - 2 =
            X.length := by simp
        rw [this]
        exact List.drop_left X _
      rw [hdrop]
      rw [parseI64_two_digits (n / 10 % 10) (by omega) (n % 10) (by omega)]
      congr 1
      omega

/-- For a non-negative cell value, the opcode-selection step of
`Instruction::new` is exactly `OpCode::try_from` applied to the value's last
two decimal digits. -/
theorem opcodeOfValue_nonneg (v : Int) (h : 0 ≤ v) :
    opcodeOfValue v = OpCode.try_from (v % 100) := by
  obtain ⟨n, rfl⟩ := Int.eq_ofNat_of_zero_le h
  have e1 : intRepr (n : Int) = natDigits n := by
    unfold intRepr
    rw [if_neg (by omega), Int.toNat_ofNat]
  unfold opcodeOfValue
  rw [e1]
  dsimp only
  rw [parse_slice_of_natDigits n]
  have e2 : ((n % 100 : Nat) : Int) = (n : Int) % 100 := by omega
  rw [e2]

/-- C5 (amended): for every non-negative memory value, decode's opcode
selection succeeds exactly when the opcode digits (the value's last two
decimal digits) denote one of the five opcodes Add, Multiply, Input, Output,
Terminate (values 1, 2, 3, 4, 99), and fails with an unknown-opcode error
carrying the two-digit opcode value otherwise.  The claimed JumpIfTrue,
JumpIfFalse, LessThan, Equals and AdjustRelativeBase opcodes do not exist
in this decoder. -/
theorem c5_amended (v : Int) (h : 0 ≤ v) :
    (opcodeOfValue v = .ok .Add ↔ v % 100 = 1) ∧
    (opcodeOfValue v = .ok .Multiply ↔ v % 100 = 2) ∧
    (opcodeOfValue v = .ok .Input ↔ v % 100 = 3) ∧
    (opcodeOfValue v = .ok .Output ↔ v % 100 = 4) ∧
    (opcodeOfValue v = .ok .Terminate ↔ v % 100 = 99) ∧
    (v % 100 ≠ 1 → v % 100 ≠ 2 → v % 100 ≠ 3 → v % 100 ≠ 4 → v % 100 ≠ 99 →
      opcodeOfValue v = .error (.unknownOpcode (v % 100))) := by
  rw [opcodeOfValue_nonneg v h]
  unfold OpCode.try_from
  refine ⟨?_, ?_, ?_, ?_, ?_, ?_⟩ <;> split_ifs <;> simp_all

/-- A successful run of the argument-building loop produces one argument per
mode character, and the argument whose loop index is `argc - 1` always has
the forced mode (Position for Output, Immediate otherwise), whatever its
mode digit was. -/
theorem buildArgs_ok_spec (t : Tape) (off argc : Nat) (opc : OpCode) :
    ∀ (chars : List Char) (i : Nat) (args : List Argument),
    buildArgs t off argc opc chars i = .ok args →
    args.length = chars.length ∧
    ∀ (j : Nat) (hj : j < args.length), i + j = argc - 1 →
      (args.get ⟨j, hj⟩).mode =
        (match opc with
          | .Output => FetchMode.Position
          | _ => FetchMode.Immediate) := by
  intro chars
  induction chars with
  | nil =>
    intro i args h
    simp only [buildArgs] at h
    cases h
    exact ⟨rfl, fun j hj _ => absurd hj (by simp)⟩
  | cons c rest ih =>
    intro i args h
    simp only [buildArgs] at h
    cases hm : modeForIndex opc argc i c with
    | error e =>
      simp only [hm] at h
      exact Except.noConfusion h
    | ok mode =>
      simp only [hm] at h
      cases hget : t.get (off + i + 1) with
      | none =>
        simp only [hget] at h
        exact Except.noConfusion h
      | some value =>
        simp only [hget] at h
        cases hb : buildArgs t off argc opc rest (i + 1) with
        | error e =>
          simp only [hb] at h
          exact Except.noConfusion h
        | ok rest' =>
          simp only [hb, Except.ok.injEq] at h
          subst h
          obtain ⟨hlen, hmode⟩ := ih (i + 1) rest' hb
          refine ⟨by simp [hlen], ?_⟩
          intro j hj hforce
          cases j with
          | zero =>
            have hi : i = argc - 1 := by omega
            unfold modeForIndex at hm
            rw [if_pos hi] at hm
            cases opc <;> simp_all
          | succ j' =>
            have : (i + 1) + j' = argc - 1 := by omega
            have hj' : j' < rest'.length := by simpa using hj
            exact hmode j' hj' this

/-- C6 (amended): in every successfully decoded instruction the last
parameter — the write target of Add, Multiply and Input — has Immediate mode
forced by the decoder (never Position, and never an InvalidWriteMode
failure, which does not exist in this code), and an Immediate argument
resolves to its raw value, which `run` then uses as the store address.  A
write-target parameter in Position mode never occurs. -/
theorem c6_amended (t : Tape) (off : Nat) (instr : Instruction)
    (hnew : Instruction.new t off = .ok instr)
    (h0 : 0 < instr.arguments.length) :
    ((instr.arguments.get ⟨instr.arguments.length - 1, by omega⟩).mode =
      match instr.opcode with
      | .Output => FetchMode.Position
      | _ => FetchMode.Immediate) ∧
    ∀ (tp : Tape) (v : Int),
      Argument.get { mode := FetchMode.Immediate, value := v } tp = some v := by
  refine ⟨?_, fun tp v => rfl⟩
  unfold Instruction.new at hnew
  cases hget : t.get off with
  | none =>
    simp only [hget] at hnew
    exact Except.noConfusion hnew
  | some v =>
    simp only [hget] at hnew
    cases hov : opcodeOfValue v with
    | error e =>
      simp only [hov] at hnew
      exact Except.noConfusion hnew
    | ok opcode =>
      simp only [hov] at hnew
      cases hb : buildArgs t off opcode.argument_count opcode
          ((padLeftZero opcode.argument_count
            ((padLeftZero 2 (intRepr v)).take
              ((padLeftZero 2 (intRepr v)).length - 2))).reverse) 0 with
      | error e =>
        simp only [hb] at hnew
        exact Except.noConfusion hnew
      | ok args =>
        simp only [hb] at hnew
        unfold Instruction.validate at hnew
        by_cases hlen : args.length ≠ OpCode.argument_count opcode
        · simp only [if_pos hlen] at hnew
          exact Except.noConfusion hnew
        · simp only [if_neg hlen] at hnew
          injection hnew with hinstr
          subst hinstr
          dsimp only at h0 ⊢
          have hlen' : args.length = OpCode.argument_count opcode := by
            exact not_ne_iff.mp hlen
          obtain ⟨-, hmode⟩ :=
            buildArgs_ok_spec t off (OpCode.argument_count opcode) opcode _ 0
              args hb
          exact hmode (args.length - 1) (by omega) (by omega)

/-- C6 witness: the amended theorem applied to the decode of `1,0,0,0,99`. -/
theorem c6_amended_witness :
    (([⟨FetchMode.Position, 0⟩, ⟨FetchMode.Position, 0⟩,
       ⟨FetchMode.Immediate, (0 : Int)⟩] : List Argument).get
        ⟨2, by decide⟩).mode = FetchMode.Immediate := by
  have h := c6_amended (Tape.new [1, 0, 0, 0, 99]) 0
    { position := 0, opcode := .Add,
      arguments := [⟨.Position, 0⟩, ⟨.Position, 0⟩, ⟨.Immediate, 0⟩] }
    rfl (by decide)
  exact h.1

/-- C5 witness: the amended theorem applied at the values 105 and 101. -/
theorem c5_amended_witness :
    opcodeOfValue 105 = .error (.unknownOpcode 5) ∧
    opcodeOfValue 101 = .ok .Add := by
  constructor
  · exact (c5_amended 105 (by norm_num)).2.2.2.2.2 (by decide) (by decide)
      (by decide) (by decide) (by decide)
  · exact (c5_amended 101 (by norm_num)).1.mpr (by decide)

/-- C6 counterexample: decoding `1,0,0,0,99` at ip 0 gives an Add whose
write-target parameter has Immediate mode, and executing it succeeds
(writing 2 to address 0) instead of failing with any invalid-write-mode
error. -/
theorem c6_counterexample :
    Instruction.new (Tape.new [1, 0, 0, 0, 99]) 0 =
      .ok { position := 0, opcode := .Add,
            arguments := [⟨.Position, 0⟩, ⟨.Position, 0⟩, ⟨.Immediate, 0⟩] } ∧
    Instruction.run
      { position := 0, opcode := .Add,
        arguments := [⟨.Position, 0⟩, ⟨.Position, 0⟩, ⟨.Immediate, 0⟩] }
      (Tape.new [1, 0, 0, 0, 99]) [] =
      .ok (.Continue, Tape.new [2, 0, 0, 0, 99], [], []) :=
  ⟨rfl, rfl⟩
